import Mathlib

/-!
Shallow embedding of the simple single-accumulator computer simulator
(`src/sample1.jsx`): the RAM (wraparound memory), the Bus (merge-send
broadcast channel), the CPU (fetch/decode/execute state machine) and the
small assembler `quickAssemble`.  JavaScript numbers are modelled as `Int`
(the program only ever manipulates integers); JS `x & 0xff` on an integer
equals `x` reduced modulo 256 (ToInt32 reduces modulo 2^32 and 256 divides
2^32) and is embedded as `Int.emod x 256`; the JS `%` operator is truncated
remainder and is embedded as `Int.tmod`.
-/

set_option autoImplicit false

/-! ### Opcode table (`OPCODES` object) -/

namespace OPCODES

def NOP : Int := 0

def LOAD : Int := 1

def STORE : Int := 2

def ADD : Int := 3

def SUB : Int := 4

def JMP : Int := 5

def JZ : Int := 6

def OUT : Int := 7

def HALT : Int := 255

end OPCODES

/-! ### Memory (`class RAM`) -/

/-- The RAM: a fixed capacity `size` and the backing cells, modelled as a
total function from addresses to values; only the wrapped image of an
address is ever accessed, mirroring the JS array of length `size`. -/
structure RAM where
  size : Nat
  data : Int → Int

/-- `new RAM(size)`: all cells initialized to 0. -/
def RAM.init (size : Nat) : RAM :=
  { size := size, data := fun _ => 0 }

/-- `RAM._wrap`: `((addr % this.size) + this.size) % this.size` with the JS
truncated remainder `%` (= `Int.tmod`). -/
def RAM.wrap (m : RAM) (addr : Int) : Int :=
  ((addr.tmod (m.size : Int)) + (m.size : Int)).tmod (m.size : Int)

/-- `RAM.read`: wrap the address, return the stored cell. -/
def RAM.read (m : RAM) (addr : Int) : Int :=
  m.data (m.wrap addr)

/-- `RAM.write`: wrap the address, store `value & 0xff` (= `value mod 256`
for integer values). -/
def RAM.write (m : RAM) (addr value : Int) : RAM :=
  { m with data := fun x => if x = m.wrap addr then value.emod 256 else m.data x }

/-- `ram.data.fill(value)` (JS `Array.prototype.fill` on the backing array,
invoked by `resetAll` and the assemble handler): every cell becomes `value`,
stored as-is without masking. -/
def RAM.fill (m : RAM) (value : Int) : RAM :=
  { m with data := fun _ => value }

/-- The `for` loop of `CPU.loadProgram`: write the bytes sequentially
starting at `start`. -/
def RAM.writeList (m : RAM) (start : Int) : List Int → RAM
  | [] => m
  | v :: vs => RAM.writeList (m.write start v) (start + 1) vs

/-! ### Bus (`class Bus`) -/

/-- The bus lines `{ addr, data, control }`; `none` models JS `null`. -/
structure BusLines where
  addr : Option Int
  data : Option Int
  control : Option String
deriving DecidableEq

/-- A packet passed to `Bus.send`; `none` models a field that is absent
from the JS object literal. -/
structure Packet where
  addr : Option Int
  data : Option Int
  control : Option String

/-- Field merge of `{ ...this.lines, ...packet }`: a field present in the
packet replaces the old value, an absent field keeps it. -/
def mergeField {α : Type} : Option α → Option α → Option α
  | some x, _ => some x
  | none, old => old

/-- `Bus.send(packet)`: merge the packet into the current lines.  Every
send synchronously notifies the listeners with the merged lines; the
notified value is the result of this function. -/
def Bus.send (l : BusLines) (p : Packet) : BusLines :=
  { addr := mergeField p.addr l.addr
    data := mergeField p.data l.data
    control := mergeField p.control l.control }

/-- `Bus.clear()`: all three lines become `null`.  Also the initial lines
of `new Bus()`. -/
def Bus.clearLines : BusLines :=
  { addr := none, data := none, control := none }

/-! ### CPU (`class CPU`) -/

/-- The full machine state: the shared RAM and bus lines plus the CPU
registers `PC`, `ACC`, `IR`, the zero flag (`flags.zero`) and the halted
flag. -/
structure CPUState where
  ram : RAM
  bus : BusLines
  PC : Int
  ACC : Int
  IR : Int
  zero : Bool
  halted : Bool

/-- The value returned by `step()`: the sentinel `{ type: "HALT" }` when
already halted, otherwise the snapshot `{ pc, acc, ir, flags }`. -/
inductive StepResult where
  | haltSentinel : StepResult
  | snapshot (pc acc ir : Int) (zero : Bool) : StepResult
deriving DecidableEq

/-- One invocation of the `onStep` hook (`CPU._tick`): the object
`{ action, pc, acc, ir, flags: { zero } }`. -/
structure TickEvent where
  action : String
  pc : Int
  acc : Int
  ir : Int
  zero : Bool
deriving DecidableEq

/-- Everything one `step()` call produces: the successor state, the return
value, the bus lines delivered to bus listeners (in order of the `send`
calls) and the `onStep` invocations.  The deferred
`setTimeout(() => bus.clear(), 300)` is asynchronous and is modelled
separately by `Bus.clearLines`. -/
structure StepOut where
  state : CPUState
  result : StepResult
  busEvents : List BusLines
  ticks : List TickEvent

/-- `new CPU({ram, bus})`: registers zeroed, flags false. -/
def CPU.init (ram : RAM) : CPUState :=
  { ram := ram, bus := Bus.clearLines, PC := 0, ACC := 0, IR := 0
    zero := false, halted := false }

/-- `CPU.loadProgram(program, start)`: write the bytes into RAM starting
at `start` and set `PC := start`. -/
def CPU.loadProgram (s : CPUState) (program : List Int) (start : Int) : CPUState :=
  { s with ram := s.ram.writeList start program, PC := start }

/-- `CPU.reset()`: zero the registers and flags; memory is untouched. -/
def CPU.reset (s : CPUState) : CPUState :=
  { s with PC := 0, ACC := 0, IR := 0, zero := false, halted := false }

/-- Common tail of every executed instruction: `_tick(action)` (which
snapshots the current registers) followed by the final
`return { pc, acc, ir, flags }`. -/
def CPU.stepDone (s : CPUState) (action : String) (evs : List BusLines) : StepOut :=
  { state := s
    result := .snapshot s.PC s.ACC s.IR s.zero
    busEvents := evs
    ticks := [{ action := action, pc := s.PC, acc := s.ACC, ir := s.IR, zero := s.zero }] }

/-- `CPU.step()`: early sentinel return when halted, otherwise the
fetch / decode / execute cycle of the source, branch by branch. -/
def CPU.step (s0 : CPUState) : StepOut :=
  if s0.halted then
    { state := s0, result := .haltSentinel, busEvents := [], ticks := [] }
  else
    let l1 := Bus.send s0.bus { addr := some s0.PC, data := none, control := some "FETCH" }
    let instr := s0.ram.read s0.PC
    let s1 : CPUState := { s0 with bus := l1, IR := instr, PC := s0.PC + 1 }
    if instr = OPCODES.NOP then
      CPU.stepDone s1 "NOP" [l1]
    else if instr = OPCODES.LOAD then
      let addr := s1.ram.read s1.PC
      let l2 := Bus.send l1 { addr := some addr, data := none, control := some "READ" }
      let v := s1.ram.read addr
      CPU.stepDone
        { s1 with PC := s1.PC + 1, bus := l2, ACC := v, zero := decide (v = 0) }
        ("LOAD " ++ toString addr) [l1, l2]
    else if instr = OPCODES.STORE then
      let addr := s1.ram.read s1.PC
      let l2 := Bus.send l1 { addr := some addr, data := some s1.ACC, control := some "WRITE" }
      CPU.stepDone
        { s1 with PC := s1.PC + 1, bus := l2, ram := s1.ram.write addr s1.ACC }
        ("STORE " ++ toString addr) [l1, l2]
    else if instr = OPCODES.ADD then
      let addr := s1.ram.read s1.PC
      let l2 := Bus.send l1 { addr := some addr, data := none, control := some "READ" }
      let v := s1.ram.read addr
      let acc := (s1.ACC + v).emod 256
      CPU.stepDone
        { s1 with PC := s1.PC + 1, bus := l2, ACC := acc, zero := decide (acc = 0) }
        ("ADD " ++ toString addr) [l1, l2]
    else if instr = OPCODES.SUB then
      let addr := s1.ram.read s1.PC
      let l2 := Bus.send l1 { addr := some addr, data := none, control := some "READ" }
      let v := s1.ram.read addr
      let acc := (s1.ACC - v).emod 256
      CPU.stepDone
        { s1 with PC := s1.PC + 1, bus := l2, ACC := acc, zero := decide (acc = 0) }
        ("SUB " ++ toString addr) [l1, l2]
    else if instr = OPCODES.JMP then
      let addr := s1.ram.read s1.PC
      CPU.stepDone { s1 with PC := addr } ("JMP " ++ toString addr) [l1]
    else if instr = OPCODES.JZ then
      let addr := s1.ram.read s1.PC
      if s1.zero then
        CPU.stepDone { s1 with PC := addr } ("JZ (taken) " ++ toString addr) [l1]
      else
        CPU.stepDone { s1 with PC := s1.PC + 1 } ("JZ (not taken) " ++ toString addr) [l1]
    else if instr = OPCODES.OUT then
      CPU.stepDone s1 ("OUT " ++ toString s1.ACC) [l1]
    else if instr = OPCODES.HALT then
      CPU.stepDone { s1 with halted := true } "HALT" [l1]
    else
      CPU.stepDone s1 ("DATA " ++ toString instr) [l1]

/-- Iterated `step()`: the state after `n` calls. -/
def CPU.stepN (s : CPUState) : Nat → CPUState
  | 0 => s
  | n + 1 => (CPU.step (CPU.stepN s n)).state

/-- The sequence of `step()` return values over `n` consecutive calls. -/
def CPU.runResults (s : CPUState) : Nat → List StepResult
  | 0 => []
  | n + 1 => CPU.runResults s n ++ [(CPU.step (CPU.stepN s n)).result]

/-- The register/flag/memory part of the state: everything the step
snapshots and the memory, omitting only the bus lines. -/
def coreEq (s1 s2 : CPUState) : Prop :=
  s1.PC = s2.PC ∧ s1.ACC = s2.ACC ∧ s1.IR = s2.IR ∧ s1.zero = s2.zero ∧
    s1.halted = s2.halted ∧ s1.ram = s2.ram

/-- The snapshot shape delivered to the step observer, as a `StepResult`. -/
def tickShape (t : TickEvent) : StepResult :=
  .snapshot t.pc t.acc t.ir t.zero

/-! ### Assembler (`quickAssemble`)

Lines are tokenized on runs of whitespace after trimming
(`ln.trim().split(/\s+/)` plus the falsy check on `parts[0]`), modelled by
a structural tokenizer over the character list.  `parseInt` is modelled on
base-10 inputs: an optional sign followed by a leading digit run; `none`
plays the role of JS `NaN` (for a missing or non-numeric token). -/

/-- Accumulating whitespace tokenizer: splits on whitespace runs, drops
empty tokens. -/
def splitWsAux : List Char → List Char → List (List Char)
  | [], cur => if cur = [] then [] else [cur.reverse]
  | c :: cs, cur =>
    if c.isWhitespace then
      if cur = [] then splitWsAux cs [] else cur.reverse :: splitWsAux cs []
    else
      splitWsAux cs (c :: cur)

/-- `ln.trim().split(/\s+/)` with empty tokens dropped (the JS code skips
a line whose first token is falsy, which only happens when the trimmed
line is empty). -/
def tokenize (ln : String) : List (List Char) :=
  splitWsAux ln.data []

/-- Leading decimal digit run, `none` when the input starts with a
non-digit. -/
def parseDigits : List Char → Option Nat → Option Nat
  | [], acc => acc
  | c :: cs, acc =>
    if c.isDigit then
      parseDigits cs (some ((acc.getD 0) * 10 + (c.toNat - 48)))
    else
      acc

/-- JS `parseInt` on base-10 tokens: optional sign then a leading digit
run; `none` models `NaN`. -/
def jsParseInt (t : List Char) : Option Int :=
  match t with
  | '-' :: rest => (parseDigits rest none).map (fun n => -(n : Int))
  | '+' :: rest => (parseDigits rest none).map (fun n => (n : Int))
  | _ => (parseDigits t none).map (fun n => (n : Int))

/-- The `mapping` object of `quickAssemble`, entries of `OPCODES`. -/
def opcodeTable : List (List Char × Int) :=
  [("NOP".data, OPCODES.NOP), ("LOAD".data, OPCODES.LOAD),
   ("STORE".data, OPCODES.STORE), ("ADD".data, OPCODES.ADD),
   ("SUB".data, OPCODES.SUB), ("JMP".data, OPCODES.JMP),
   ("JZ".data, OPCODES.JZ), ("OUT".data, OPCODES.OUT),
   ("HALT".data, OPCODES.HALT)]

/-- The assembler output `{ prog, data }`.  Program entries and data map
keys/values are `Option Int` so that `none` can represent JS `NaN`; the
data map is an insertion-ordered association list mirroring a JS object
(assigning an existing key overwrites in place, a new key is appended). -/
structure AsmOut where
  prog : List (Option Int)
  data : List (Option Int × Option Int)
deriving DecidableEq

/-- JS object assignment `data[addr] = val`. -/
def objSet : List (Option Int × Option Int) → Option Int → Option Int →
    List (Option Int × Option Int)
  | [], k, v => [(k, v)]
  | (k', v') :: rest, k, v =>
    if k' = k then (k, v) :: rest else (k', v') :: objSet rest k v

/-- The body of the `assemblies.forEach((ln) => ...)` callback. -/
def asmLine (acc : AsmOut) (ln : String) : AsmOut :=
  match tokenize ln with
  | [] => acc
  | w :: rest =>
    let op := w.map Char.toUpper
    if op = "DATA".data then
      let addr := (rest[0]?).bind jsParseInt
      let v := (rest[1]?).bind jsParseInt
      { acc with data := objSet acc.data addr v }
    else
      match List.lookup op opcodeTable with
      | some code =>
        { acc with prog := acc.prog ++ some code :: ((rest[0]?).map jsParseInt).toList }
      | none => acc

/-- `quickAssemble(assemblies)`. -/
def quickAssemble (assemblies : List String) : AsmOut :=
  assemblies.foldl asmLine { prog := [], data := [] }

/-! ### Concrete machines used by the scenario claims -/

/-- `sampleProgram` of the source. -/
def sampleProgram : List Int :=
  [OPCODES.LOAD, 10, OPCODES.ADD, 11, OPCODES.OUT, OPCODES.STORE, 12, OPCODES.HALT]

/-- The machine after the mount effect: `cpu.loadProgram(sampleProgram, 0)`
into a fresh 64-cell RAM, then the `sampleData` preload
`Memory[10] := 7`, `Memory[11] := 3`. -/
def demoStart : CPUState :=
  let s := CPU.loadProgram (CPU.init (RAM.init 64)) sampleProgram 0
  { s with ram := (s.ram.write 10 7).write 11 3 }

/-- The jump-scenario machine: program
`[LOAD,5, JZ,6, HALT, NOP, NOP, JMP,2]` at address 0, `Memory[5] = 0`. -/
def jumpStart : CPUState :=
  let s := CPU.loadProgram (CPU.init (RAM.init 64))
    [OPCODES.LOAD, 5, OPCODES.JZ, 6, OPCODES.HALT, OPCODES.NOP, OPCODES.NOP,
     OPCODES.JMP, 2] 0
  { s with ram := s.ram.write 5 0 }

/-- A machine that is already halted. -/
def haltedDemo : CPUState :=
  { CPU.init (RAM.init 64) with halted := true }

/-- A machine whose next instruction is `NOP` (fresh RAM is all zeroes). -/
def nopDemo : CPUState :=
  CPU.init (RAM.init 64)

/-- A machine about to execute `STORE 20` with `ACC = 9`. -/
def storeDemo : CPUState :=
  { CPU.init ((RAM.init 64).writeList 0 [OPCODES.STORE, 20, OPCODES.NOP]) with ACC := 9 }

/-- A machine fetching from the last cell of a 64-cell RAM: cell 63 holds
`NOP` (zero), cell 0 holds `OUT`. -/
def edgeDemo : CPUState :=
  { CPU.init ((RAM.init 64).write 0 OPCODES.OUT) with PC := 63 }

/-- `demoStart` with unrelated junk on the bus lines, for the determinism
claim. -/
def demoStartDirtyBus : CPUState :=
  { demoStart with bus := { addr := some 1, data := some 2, control := some "WRITE" } }

/-- Concrete bus lines for the frame-effect witness. -/
def wLines : BusLines :=
  { addr := some 1, data := some 2, control := some "WRITE" }

/-- A packet with the `data` field absent, for the frame-effect witness. -/
def wPacket : Packet :=
  { addr := some 3, data := none, control := some "FETCH" }

/-! ### Helper lemmas -/

/-- The truncated remainder is strictly above `-b` for positive `b`. -/
theorem neg_lt_tmod (a : Int) {b : Int} (hb : 0 < b) : -b < a.tmod b := by
  cases a with
  | ofNat m =>
    have h0 : (0 : Int) ≤ (Int.ofNat m).tmod b :=
      Int.tmod_nonneg b (by rw [Int.ofNat_eq_coe]; exact Int.ofNat_nonneg m)
    omega
  | negSucc m =>
    cases b with
    | ofNat n =>
      have hn : 0 < n := by
        rw [Int.ofNat_eq_coe] at hb
        exact_mod_cast hb
      have hlt : (m + 1) % n < n := Nat.mod_lt _ hn
      have he : (Int.negSucc m).tmod (Int.ofNat n) = -(Int.ofNat ((m + 1) % n)) := rfl
      rw [he, Int.ofNat_eq_coe, Int.ofNat_eq_coe]
      omega
    | negSucc n =>
      exact absurd hb (by have := Int.negSucc_lt_zero n; omega)

/-- The double-remainder wraparound of `RAM._wrap` is Euclidean reduction
modulo the capacity. -/
theorem RAM.wrap_eq_emod (m : RAM) (h : 0 < m.size) (a : Int) :
    m.wrap a = a.emod (m.size : Int) := by
  have hn : (0 : Int) < (m.size : Int) := by exact_mod_cast h
  have h1 : a.tmod (m.size : Int) < (m.size : Int) := Int.tmod_lt_of_pos a hn
  have h2 : -(m.size : Int) < a.tmod (m.size : Int) := neg_lt_tmod a hn
  unfold RAM.wrap
  rw [Int.tmod_eq_emod (by omega) (by omega)]
  have h4 : (a.tmod (m.size : Int) + (m.size : Int)) % (m.size : Int)
      = a.tmod (m.size : Int) % (m.size : Int) := by
    have h5 := Int.add_mul_emod_self_left (a.tmod (m.size : Int)) (m.size : Int) 1
    rw [Int.mul_one] at h5
    exact h5
  rw [h4, Int.tmod_def]
  have h6 : a - (m.size : Int) * a.tdiv (m.size : Int)
      = a + (m.size : Int) * (-(a.tdiv (m.size : Int))) := by ring
  rw [h6, Int.add_mul_emod_self_left]
  rfl

/-- The wrapped address lands in `[0, size)`. -/
theorem RAM.wrap_range (m : RAM) (h : 0 < m.size) (a : Int) :
    0 ≤ m.wrap a ∧ m.wrap a < (m.size : Int) := by
  have hn : (0 : Int) < (m.size : Int) := by exact_mod_cast h
  rw [RAM.wrap_eq_emod m h a]
  exact ⟨Int.emod_nonneg a (by omega), Int.emod_lt_of_pos a hn⟩

/-- A halted machine's `step()` is the early sentinel return, touching
nothing and emitting nothing. -/
theorem CPU.step_halted {s : CPUState} (h : s.halted = true) :
    CPU.step s = { state := s, result := .haltSentinel, busEvents := [], ticks := [] } := by
  unfold CPU.step
  rw [if_pos h]

/-- Iterating `step()` from a halted machine never changes the state. -/
theorem CPU.stepN_halted {s : CPUState} (h : s.halted = true) (n : Nat) :
    CPU.stepN s n = s := by
  induction n with
  | zero => rfl
  | succ k ih =>
    show (CPU.step (CPU.stepN s k)).state = s
    rw [ih, CPU.step_halted h]

/-! ### Claims -/

/-- C1: running the assembled sample program with `Memory[10]=7`,
`Memory[11]=3` and the bytes `[LOAD,10, ADD,11, OUT, STORE,12, HALT]`
loaded at 0 with `PC=0`: after exactly 5 `step()` calls the accumulator is
10, `Memory[12]` is 10, the halted flag is set and the zero flag is not. -/
theorem sample_run_correct :
    (CPU.stepN demoStart 5).ACC = 10 ∧
    (CPU.stepN demoStart 5).ram.read 12 = 10 ∧
    (CPU.stepN demoStart 5).halted = true ∧
    (CPU.stepN demoStart 5).zero = false := by
  decide

/-- C2: for every integer address `a` and value `v`, `write(a, v)` followed
by `read(a)` returns `v mod 256`; both operations normalize the address by
the same wraparound, which lands in `[0, size)` and is reduction modulo the
capacity. -/
theorem mem_write_read_roundtrip (m : RAM) (a v : Int) (h : 0 < m.size) :
    (m.write a v).read a = v.emod 256 ∧
    (m.write a v).wrap a = m.wrap a ∧
    m.wrap a = a.emod (m.size : Int) ∧
    0 ≤ m.wrap a ∧ m.wrap a < (m.size : Int) := by
  refine ⟨?_, rfl, RAM.wrap_eq_emod m h a, (RAM.wrap_range m h a).1, (RAM.wrap_range m h a).2⟩
  show (m.write a v).data ((m.write a v).wrap a) = v.emod 256
  have hw : (m.write a v).wrap a = m.wrap a := rfl
  rw [hw]
  show (if m.wrap a = m.wrap a then v.emod 256 else m.data (m.wrap a)) = v.emod 256
  rw [if_pos rfl]

/-- Witness for C2 at the 64-cell RAM, address `-5`, value `300`. -/
theorem mem_write_read_roundtrip_witness :
    ((RAM.init 64).write (-5) 300).read (-5) = (300 : Int).emod 256 ∧
    ((RAM.init 64).write (-5) 300).wrap (-5) = (RAM.init 64).wrap (-5) ∧
    (RAM.init 64).wrap (-5) = (-5 : Int).emod (((RAM.init 64).size : Nat) : Int) ∧
    0 ≤ (RAM.init 64).wrap (-5) ∧
    (RAM.init 64).wrap (-5) < (((RAM.init 64).size : Nat) : Int) :=
  mem_write_read_roundtrip (RAM.init 64) (-5) 300 (by decide)

/-- C3: halting is terminal: from any state with the halted flag set, any
number of `step()` calls leaves the whole state (registers, flags, bus and
memory) unchanged, every such call returns the terminal sentinel and emits
no bus event and no observer tick; `reset()` clears the halted flag. -/
theorem halt_is_terminal (s : CPUState) (h : s.halted = true) :
    (∀ n : Nat, CPU.stepN s n = s) ∧
    (∀ n : Nat, CPU.step (CPU.stepN s n) =
      { state := s, result := .haltSentinel, busEvents := [], ticks := [] }) ∧
    (CPU.reset s).halted = false := by
  refine ⟨CPU.stepN_halted h, ?_, rfl⟩
  intro n
  rw [CPU.stepN_halted h n, CPU.step_halted h]

/-- Witness for C3: three steps from a concrete halted machine. -/
theorem halt_is_terminal_witness :
    CPU.stepN haltedDemo 3 = haltedDemo ∧
    CPU.step (CPU.stepN haltedDemo 3) =
      { state := haltedDemo, result := .haltSentinel, busEvents := [], ticks := [] } :=
  ⟨(halt_is_terminal haltedDemo rfl).1 3, (halt_is_terminal haltedDemo rfl).2.1 3⟩

/-- C4: in the jump scenario `[LOAD,5, JZ,6, HALT, NOP, NOP, JMP,2]` with
`Memory[5]=0`, step 1 leaves `ACC = 0` with the zero flag set, and step 2
(the `JZ`) sets `PC` to 6 instead of falling through to the `HALT` that
sits at address 4. -/
theorem jz_taken_scenario :
    (CPU.stepN jumpStart 1).ACC = 0 ∧
    (CPU.stepN jumpStart 1).zero = true ∧
    (CPU.stepN jumpStart 2).PC = 6 ∧
    jumpStart.ram.read 4 = OPCODES.HALT := by
  decide

/-- C6: after `fill(value)` every read, at every address, returns exactly
that value. -/
theorem fill_then_read (m : RAM) (v a : Int) : (m.fill v).read a = v := rfl

/-- C7: assembling the sample source lines yields the byte program
`[1,10,3,11,7,2,12,255]` and the data map `{10: 7, 11: 3}`. -/
theorem assemble_sample_roundtrip :
    quickAssemble ["LOAD 10", "ADD 11", "OUT", "STORE 12", "HALT",
        "DATA 10 7", "DATA 11 3"] =
      { prog := [some 1, some 10, some 3, some 11, some 7, some 2, some 12, some 255],
        data := [(some 10, some 7), (some 11, some 3)] } := by
  decide

/-- C5 counterexample: on a halted machine, `step()` returns early and the
step observer is not invoked, refuting "invoked exactly once per `step()`
call regardless of the state (running or halted)". -/
theorem tick_skipped_when_halted : ¬ ((CPU.step haltedDemo).ticks.length = 1) := by
  decide

set_option maxHeartbeats 1000000 in
/-- C5 (amended): while the machine is not halted, every `step()` call
invokes the step observer exactly once, with a `{action, pc, acc, ir,
flags:{zero}}` snapshot whose register part equals the returned snapshot;
a `step()` on a halted machine returns the sentinel without invoking the
observer. -/
theorem tick_once_per_active_step (s : CPUState) :
    (s.halted = false → ((CPU.step s).ticks).map tickShape = [(CPU.step s).result]) ∧
    (s.halted = true → (CPU.step s).ticks = []) := by
  constructor
  · intro h
    simp only [CPU.step]
    rw [if_neg (by simp [h])]
    by_cases h2 : s.ram.read s.PC = OPCODES.NOP
    · rw [if_pos h2]; rfl
    rw [if_neg h2]
    by_cases h3 : s.ram.read s.PC = OPCODES.LOAD
    · rw [if_pos h3]; rfl
    rw [if_neg h3]
    by_cases h4 : s.ram.read s.PC = OPCODES.STORE
    · rw [if_pos h4]; rfl
    rw [if_neg h4]
    by_cases h5 : s.ram.read s.PC = OPCODES.ADD
    · rw [if_pos h5]; rfl
    rw [if_neg h5]
    by_cases h6 : s.ram.read s.PC = OPCODES.SUB
    · rw [if_pos h6]; rfl
    rw [if_neg h6]
    by_cases h7 : s.ram.read s.PC = OPCODES.JMP
    · rw [if_pos h7]; rfl
    rw [if_neg h7]
    by_cases h8 : s.ram.read s.PC = OPCODES.JZ
    · rw [if_pos h8]
      by_cases h9 : s.zero = true
      · rw [if_pos h9]; rfl
      · rw [if_neg h9]; rfl
    rw [if_neg h8]
    by_cases h10 : s.ram.read s.PC = OPCODES.OUT
    · rw [if_pos h10]; rfl
    rw [if_neg h10]
    by_cases h11 : s.ram.read s.PC = OPCODES.HALT
    · rw [if_pos h11]; rfl
    rw [if_neg h11]
    rfl
  · intro h
    simp only [CPU.step]
    rw [if_pos h]

/-- Witness for C5 at the loaded sample machine. -/
theorem tick_once_per_active_step_witness :
    ((CPU.step demoStart).ticks).map tickShape = [(CPU.step demoStart).result] :=
  (tick_once_per_active_step demoStart).1 rfl

set_option maxHeartbeats 1000000 in
/-- A single `step()` preserves agreement of the register/flag/memory part
between two machines and yields the same returned snapshot; the bus lines
never influence them. -/
theorem step_coreEq {a b : CPUState} (h : coreEq a b) :
    coreEq (CPU.step a).state (CPU.step b).state ∧
      (CPU.step a).result = (CPU.step b).result := by
  obtain ⟨ra, ba, pa, aa, ia, za, ha⟩ := a
  obtain ⟨rb, bb, pb, ab, ib, zb, hb⟩ := b
  simp only [coreEq] at h
  obtain ⟨rfl, rfl, rfl, rfl, rfl, rfl⟩ := h
  simp only [CPU.step]
  by_cases h1 : ha = true
  · simp only [if_pos h1]
    exact ⟨⟨rfl, rfl, rfl, rfl, rfl, rfl⟩, by trivial⟩
  simp only [if_neg h1]
  by_cases h2 : ra.read pa = OPCODES.NOP
  · simp only [if_pos h2]
    exact ⟨⟨rfl, rfl, rfl, rfl, rfl, rfl⟩, by trivial⟩
  simp only [if_neg h2]
  by_cases h3 : ra.read pa = OPCODES.LOAD
  · simp only [if_pos h3]
    exact ⟨⟨rfl, rfl, rfl, rfl, rfl, rfl⟩, by trivial⟩
  simp only [if_neg h3]
  by_cases h4 : ra.read pa = OPCODES.STORE
  · simp only [if_pos h4]
    exact ⟨⟨rfl, rfl, rfl, rfl, rfl, rfl⟩, by trivial⟩
  simp only [if_neg h4]
  by_cases h5 : ra.read pa = OPCODES.ADD
  · simp only [if_pos h5]
    exact ⟨⟨rfl, rfl, rfl, rfl, rfl, rfl⟩, by trivial⟩
  simp only [if_neg h5]
  by_cases h6 : ra.read pa = OPCODES.SUB
  · simp only [if_pos h6]
    exact ⟨⟨rfl, rfl, rfl, rfl, rfl, rfl⟩, by trivial⟩
  simp only [if_neg h6]
  by_cases h7 : ra.read pa = OPCODES.JMP
  · simp only [if_pos h7]
    exact ⟨⟨rfl, rfl, rfl, rfl, rfl, rfl⟩, by trivial⟩
  simp only [if_neg h7]
  by_cases h8 : ra.read pa = OPCODES.JZ
  · simp only [if_pos h8]
    by_cases h9 : za = true
    · simp only [if_pos h9]
      exact ⟨⟨rfl, rfl, rfl, rfl, rfl, rfl⟩, by trivial⟩
    · simp only [if_neg h9]
      exact ⟨⟨rfl, rfl, rfl, rfl, rfl, rfl⟩, by trivial⟩
  simp only [if_neg h8]
  by_cases h10 : ra.read pa = OPCODES.OUT
  · simp only [if_pos h10]
    exact ⟨⟨rfl, rfl, rfl, rfl, rfl, rfl⟩, by trivial⟩
  simp only [if_neg h10]
  by_cases h11 : ra.read pa = OPCODES.HALT
  · simp only [if_pos h11]
    exact ⟨⟨rfl, rfl, rfl, rfl, rfl, rfl⟩, by trivial⟩
  simp only [if_neg h11]
  exact ⟨⟨rfl, rfl, rfl, rfl, rfl, rfl⟩, by trivial⟩

/-- C8: two machines whose registers, flags and memories agree (the bus
lines may differ arbitrarily) stay in agreement on registers, flags and
memory after any number of `step()` calls and return identical snapshot
sequences at every step. -/
theorem cpu_deterministic (s1 s2 : CPUState) (h : coreEq s1 s2) (n : Nat) :
    coreEq (CPU.stepN s1 n) (CPU.stepN s2 n) ∧
      CPU.runResults s1 n = CPU.runResults s2 n := by
  induction n with
  | zero => exact ⟨h, rfl⟩
  | succ k ih =>
    obtain ⟨hc, hr⟩ := ih
    have hs := step_coreEq hc
    refine ⟨hs.1, ?_⟩
    show CPU.runResults s1 k ++ [(CPU.step (CPU.stepN s1 k)).result]
        = CPU.runResults s2 k ++ [(CPU.step (CPU.stepN s2 k)).result]
    rw [hr, hs.2]

/-- Witness for C8: the sample machine against the same machine with dirty
bus lines, three steps. -/
theorem cpu_deterministic_witness :
    coreEq (CPU.stepN demoStart 3) (CPU.stepN demoStartDirtyBus 3) ∧
      CPU.runResults demoStart 3 = CPU.runResults demoStartDirtyBus 3 :=
  cpu_deterministic demoStart demoStartDirtyBus ⟨rfl, rfl, rfl, rfl, rfl, rfl⟩ 3

set_option maxHeartbeats 1000000 in
/-- The first bus transaction of every active `step()` is the `FETCH`
send, whose packet omits `data`, so the delivered lines carry the bus's
previous `data` value. -/
theorem step_fetch_keeps_data (s : CPUState) (h : s.halted = false) :
    ((CPU.step s).busEvents.head?).map BusLines.data = some s.bus.data ∧
    ((CPU.step s).busEvents.head?).map BusLines.control = some (some "FETCH") := by
  simp only [CPU.step]
  rw [if_neg (by simp [h])]
  by_cases h2 : s.ram.read s.PC = OPCODES.NOP
  · rw [if_pos h2]; exact ⟨rfl, rfl⟩
  rw [if_neg h2]
  by_cases h3 : s.ram.read s.PC = OPCODES.LOAD
  · rw [if_pos h3]; exact ⟨rfl, rfl⟩
  rw [if_neg h3]
  by_cases h4 : s.ram.read s.PC = OPCODES.STORE
  · rw [if_pos h4]; exact ⟨rfl, rfl⟩
  rw [if_neg h4]
  by_cases h5 : s.ram.read s.PC = OPCODES.ADD
  · rw [if_pos h5]; exact ⟨rfl, rfl⟩
  rw [if_neg h5]
  by_cases h6 : s.ram.read s.PC = OPCODES.SUB
  · rw [if_pos h6]; exact ⟨rfl, rfl⟩
  rw [if_neg h6]
  by_cases h7 : s.ram.read s.PC = OPCODES.JMP
  · rw [if_pos h7]; exact ⟨rfl, rfl⟩
  rw [if_neg h7]
  by_cases h8 : s.ram.read s.PC = OPCODES.JZ
  · rw [if_pos h8]
    by_cases h9 : s.zero = true
    · rw [if_pos h9]; exact ⟨rfl, rfl⟩
    · rw [if_neg h9]; exact ⟨rfl, rfl⟩
  rw [if_neg h8]
  by_cases h10 : s.ram.read s.PC = OPCODES.OUT
  · rw [if_pos h10]; exact ⟨rfl, rfl⟩
  rw [if_neg h10]
  by_cases h11 : s.ram.read s.PC = OPCODES.HALT
  · rw [if_pos h11]; exact ⟨rfl, rfl⟩
  rw [if_neg h11]
  exact ⟨rfl, rfl⟩

/-- A `LOAD` step emits exactly the `FETCH` and `READ` transactions, both
with the `data` field omitted from the packet, so both delivered lines
carry the bus's previous `data` value. -/
theorem step_load_read_keeps_data (s : CPUState) (h : s.halted = false)
    (hL : s.ram.read s.PC = OPCODES.LOAD) :
    (CPU.step s).busEvents.map BusLines.data = [s.bus.data, s.bus.data] := by
  simp only [CPU.step]
  rw [if_neg (by simp [h]), hL,
      if_neg (by decide : ¬(OPCODES.LOAD = OPCODES.NOP)), if_pos rfl]
  rfl

/-- C9: `Bus.send` leaves a field omitted from the packet unchanged; the
`FETCH` and `READ` packets of the CPU omit `data`, so the lines delivered
to subscribers carry the `data` value left by the most recent earlier
send until a `clear()` resets it to `null` — concretely, after a `STORE`
(whose `WRITE` transaction carried `ACC = 9`), the bus still holds
`data = 9` and the next step's `FETCH` delivers it. -/
theorem bus_frame_effect :
    (∀ (l : BusLines) (p : Packet), p.data = none → (Bus.send l p).data = l.data) ∧
    (∀ s : CPUState, s.halted = false →
      ((CPU.step s).busEvents.head?).map BusLines.data = some s.bus.data ∧
      ((CPU.step s).busEvents.head?).map BusLines.control = some (some "FETCH")) ∧
    (∀ s : CPUState, s.halted = false → s.ram.read s.PC = OPCODES.LOAD →
      (CPU.step s).busEvents.map BusLines.data = [s.bus.data, s.bus.data]) ∧
    Bus.clearLines.data = none ∧
    (CPU.stepN storeDemo 1).bus.data = some 9 ∧
    (CPU.step (CPU.stepN storeDemo 1)).busEvents.map BusLines.data = [some 9] := by
  refine ⟨?_, step_fetch_keeps_data, step_load_read_keeps_data, rfl, by decide, by decide⟩
  intro l p hp
  show mergeField p.data l.data = l.data
  rw [hp]
  rfl

/-- Witness for C9: a concrete dataless send over dirty lines and the
fetch/read transactions of the sample machine's first (`LOAD`) step. -/
theorem bus_frame_effect_witness :
    (Bus.send wLines wPacket).data = wLines.data ∧
    (((CPU.step demoStart).busEvents.head?).map BusLines.data = some demoStart.bus.data ∧
     ((CPU.step demoStart).busEvents.head?).map BusLines.control = some (some "FETCH")) ∧
    (CPU.step demoStart).busEvents.map BusLines.data = [demoStart.bus.data, demoStart.bus.data] :=
  ⟨bus_frame_effect.1 wLines wPacket rfl,
   bus_frame_effect.2.1 demoStart rfl,
   bus_frame_effect.2.2.1 demoStart rfl (by decide)⟩

/-- C10: the CPU never wraps the program counter: a `NOP` step ends with
`PC + 1` and an operand-carrying instruction with `PC + 2`, with no modulo
reduction; concretely, a `NOP` fetched at the last address 63 of a 64-cell
RAM leaves `PC = 64 ≥ size`, and the following fetch reads the cell at
address 0 (here the `OUT` byte) because `RAM.read` wraps every address. -/
theorem pc_unwrapped :
    (∀ s : CPUState, s.halted = false → s.ram.read s.PC = OPCODES.NOP →
      (CPU.step s).state.PC = s.PC + 1) ∧
    (∀ s : CPUState, s.halted = false →
      (s.ram.read s.PC = OPCODES.LOAD ∨ s.ram.read s.PC = OPCODES.STORE ∨
       s.ram.read s.PC = OPCODES.ADD ∨ s.ram.read s.PC = OPCODES.SUB) →
      (CPU.step s).state.PC = s.PC + 2) ∧
    ((CPU.step edgeDemo).state.PC = 64 ∧ (64 : Int) ≥ (edgeDemo.ram.size : Int) ∧
     (CPU.stepN edgeDemo 2).IR = edgeDemo.ram.read 0 ∧
     edgeDemo.ram.read 0 = OPCODES.OUT) := by
  refine ⟨?_, ?_, by decide, by decide, by decide, by decide⟩
  · intro s h h0
    simp only [CPU.step]
    rw [if_neg (by simp [h]), h0, if_pos rfl]
    rfl
  · intro s h hop
    simp only [CPU.step]
    rw [if_neg (by simp [h])]
    rcases hop with h0 | h0 | h0 | h0 <;> rw [h0]
    · rw [if_neg (by decide : ¬(OPCODES.LOAD = OPCODES.NOP)), if_pos rfl]
      show s.PC + 1 + 1 = s.PC + 2
      omega
    · rw [if_neg (by decide : ¬(OPCODES.STORE = OPCODES.NOP)),
          if_neg (by decide : ¬(OPCODES.STORE = OPCODES.LOAD)), if_pos rfl]
      show s.PC + 1 + 1 = s.PC + 2
      omega
    · rw [if_neg (by decide : ¬(OPCODES.ADD = OPCODES.NOP)),
          if_neg (by decide : ¬(OPCODES.ADD = OPCODES.LOAD)),
          if_neg (by decide : ¬(OPCODES.ADD = OPCODES.STORE)), if_pos rfl]
      show s.PC + 1 + 1 = s.PC + 2
      omega
    · rw [if_neg (by decide : ¬(OPCODES.SUB = OPCODES.NOP)),
          if_neg (by decide : ¬(OPCODES.SUB = OPCODES.LOAD)),
          if_neg (by decide : ¬(OPCODES.SUB = OPCODES.STORE)),
          if_neg (by decide : ¬(OPCODES.SUB = OPCODES.ADD)), if_pos rfl]
      show s.PC + 1 + 1 = s.PC + 2
      omega

/-- Witness for C10: a `NOP` step and the sample machine's first (`LOAD`)
step. -/
theorem pc_unwrapped_witness :
    (CPU.step nopDemo).state.PC = nopDemo.PC + 1 ∧
    (CPU.step demoStart).state.PC = demoStart.PC + 2 :=
  ⟨pc_unwrapped.1 nopDemo rfl rfl, pc_unwrapped.2.1 demoStart rfl (Or.inl (by decide))⟩
